import Mathlib

/-!
Shallow embedding of `src/contrib/layout.c` (river tiled-layout client,
protocol generation A: river-layout-v1 paired with river-options-v2).

Modelling conventions:
- C `uint32_t` / `unsigned int` values are `Nat` with arithmetic reduced
  modulo `2^32` exactly where the C arithmetic wraps (`u32`, `uadd`,
  `usub`, `umul` below).
- C `double` values are modelled as `ℚ`; `wl_fixed_to_double v` is the
  exact dyadic rational `v / 256`.
- C division `/` on unsigned operands is `Nat` division (`Nat.div`); the
  C code never reaches a zero divisor (proved below), so the total `Nat`
  division is a conservative model of the partial C operation.
- Wayland protocol objects are opaque handles, modelled as `Nat` ids
  allocated from a monotone counter; a NULL pointer is `Option.none`.
- Requests the client sends to the server (pushes, commits, declares,
  reports to stderr) are reified as explicit action lists.
-/

/-- `2^32`, the modulus of C `uint32_t` arithmetic. -/
def U32MOD : Nat := 4294967296

/-- Reduce a value into `uint32_t` range. -/
def u32 (n : Nat) : Nat := n % U32MOD

/-- C `uint32_t` addition (wraps modulo `2^32`). -/
def uadd (a b : Nat) : Nat := u32 (a + b)

/-- C `uint32_t` multiplication (wraps modulo `2^32`). -/
def umul (a b : Nat) : Nat := u32 (a * b)

/-- C `uint32_t` subtraction (wraps modulo `2^32`). -/
def usub (a b : Nat) : Nat := u32 (u32 a + (U32MOD - u32 b))

/-- The `MIN(a, b)` macro from layout.c: `( a < b ? a : b )`. -/
def cMIN {α : Type} [LinearOrder α] (a b : α) : α := if a < b then a else b

/-- The `MAX(a, b)` macro from layout.c: `( a > b ? a : b )`. -/
def cMAX {α : Type} [LinearOrder α] (a b : α) : α := if a > b then a else b

/-- The `CLAMP(a, b, c)` macro from layout.c:
`( MIN(MAX(b, c), MAX(MIN(b, c), a)) )`. -/
def cCLAMP {α : Type} [LinearOrder α] (a b c : α) : α :=
  cMIN (cMAX b c) (cMAX (cMIN b c) a)

/-- The per-output parameter values read by `layout_handle_layout_demand`:
`main_count.value.u`, `main_factor.value.d`, `view_padding.value.u`,
`outer_padding.value.u`. -/
structure Params where
  main_count    : Nat
  main_factor   : ℚ
  view_padding  : Nat
  outer_padding : Nat
deriving DecidableEq

/-- `width -= 2 * output->outer_padding.value.u` (and the identical
adjustment of `height`): uint32 arithmetic, so it wraps on underflow. -/
def adjDim (p : Params) (v : Nat) : Nat := usub v (umul 2 p.outer_padding)

/-- `const double main_factor = CLAMP(output->main_factor.value.d, 0.1, 0.9);` -/
def clampedFactor (p : Params) : ℚ := cCLAMP p.main_factor (1/10) (9/10)

/-- `main_size` as computed by the three-way branch in
`layout_handle_layout_demand`; `w` is the already outer-padding-adjusted
width and `factor` the already clamped main factor.  The C assignment
`main_size = width * main_factor` converts a non-negative double to
`unsigned int` by truncation, i.e. the floor. -/
def mainSize (main_count view_count w : Nat) (factor : ℚ) : Nat :=
  if main_count = 0 then 0
  else if view_count ≤ main_count then w
  else (⌊(w : ℚ) * factor⌋).toNat

/-- `stack_size` as computed by the same three-way branch
(`stack_size = width - main_size` in the last branch, uint32 subtraction). -/
def stackSize (main_count view_count w : Nat) (factor : ℚ) : Nat :=
  if main_count = 0 then w
  else if view_count ≤ main_count then 0
  else usub w (mainSize main_count view_count w factor)

/-- Divisor of the main-branch division
`height / MIN(output->main_count.value.u, view_count)`. -/
def mainDivisor (main_count view_count : Nat) : Nat := cMIN main_count view_count

/-- Divisor of the stack-branch division
`height / ( view_count - output->main_count.value.u)` (uint32 subtraction). -/
def stackDivisor (main_count view_count : Nat) : Nat := usub view_count main_count

/-- `view_height` for loop index `i`; `h` is the already adjusted height. -/
def slotHeight (main_count view_count h i : Nat) : Nat :=
  if i < main_count then h / mainDivisor main_count view_count
  else h / stackDivisor main_count view_count

/-- The width of the region slot view `i` is placed in (`view_width`
before the view-padding subtraction): `main_size` on the main branch,
`stack_size` on the stack branch. -/
def slotWidth (p : Params) (view_count w i : Nat) : Nat :=
  if i < p.main_count then mainSize p.main_count view_count w (clampedFactor p)
  else stackSize p.main_count view_count w (clampedFactor p)

/-- One record pushed by `river_layout_v1_push_view_dimensions`. -/
structure Geometry where
  x : Nat
  y : Nat
  w : Nat
  h : Nat
deriving DecidableEq

/-- The geometry pushed for loop index `i` of a demand
(`view_count`, `width`, `height`): the body of the `for` loop of
`layout_handle_layout_demand`, including the view-padding / outer-padding
offsets applied in the `push_view_dimensions` call. -/
def pushedGeom (p : Params) (view_count width height i : Nat) : Geometry :=
  let ms := mainSize p.main_count view_count (adjDim p width) (clampedFactor p)
  let vh := slotHeight p.main_count view_count (adjDim p height) i
  let vx := if i < p.main_count then 0 else ms
  let vy := if i < p.main_count then umul i vh
            else umul (usub i p.main_count) vh
  { x := uadd (uadd vx p.view_padding) p.outer_padding
    y := uadd (uadd vy p.view_padding) p.outer_padding
    w := usub (slotWidth p view_count (adjDim p width) i) (umul 2 p.view_padding)
    h := usub vh (umul 2 p.view_padding) }

/-- A request sent on the `river_layout_v1` object by the demand handler. -/
inductive LayoutAction where
  | push_view_dimensions (serial x y w h : Nat)
  | commit (serial : Nat)
deriving DecidableEq

/-- `layout_handle_layout_demand`: the ordered sequence of requests the
handler issues for one layout-demand event (`tags` is received but unused,
exactly as in the C code). -/
def layout_handle_layout_demand (p : Params) (view_count width height tags serial : Nat) :
    List LayoutAction :=
  ((List.range view_count).map fun i =>
    let g := pushedGeom p view_count width height i
    LayoutAction.push_view_dimensions serial g.x g.y g.w g.h)
  ++ [LayoutAction.commit serial]

/-- `enum Option_type`. -/
inductive Option_type where
  | UINT_OPTION
  | DOUBLE_OPTION
deriving DecidableEq

/-- `struct Option` (named `COption` because `Option` is taken in Lean).
The `output` back-pointer is not modelled; the owning output is passed to
the handlers explicitly.  The union halves are modelled as two fields,
which is faithful because the code only ever reads the half matching the
declared `type`. -/
structure COption where
  type   : Option_type
  valueU : Nat
  valueD : ℚ
  handle : Option Nat
deriving DecidableEq

/-- `struct Output`.  `output` is the bound `wl_output` proxy id. -/
structure Output where
  output        : Nat
  layout        : Option Nat
  main_count    : COption
  main_factor   : COption
  view_padding  : COption
  outer_padding : COption
  configured    : Bool
deriving DecidableEq

/-- The events a `river_option_handle_v2` can deliver
(`wl_fixed_t` is a signed integer carrying value·256). -/
inductive OptionEvent where
  | int_value (v : Int)
  | uint_value (v : Nat)
  | fixed_value (v : Int)
  | string_value (s : String)
  | undeclared
deriving DecidableEq

/-- A request sent to the server, or a line written to stderr, by the
registry / option / sync handlers. -/
inductive CAction where
  | report (msg : String)
  | declare_uint (name : String) (v : Nat)
  | declare_fixed (name : String) (v : Int)
  | get_layout (outputId : Nat)
  | get_option_handle (name : String) (outputId : Nat)
  | parameters_changed (layout : Option Nat)
deriving DecidableEq

/-- `option_handle_uint`: accept the value only when the declared type is
`UINT_OPTION`, then notify `parameters_changed` on the owning output's
layout object (`option->output->layout`, passed here as `lay`). -/
def option_handle_uint (o : COption) (lay : Option Nat) (v : Nat) :
    COption × List CAction :=
  if o.type = Option_type.UINT_OPTION then
    ({ o with valueU := v }, [CAction.parameters_changed lay])
  else (o, [])

/-- `option_handle_fixed`: accept only when the declared type is
`DOUBLE_OPTION`; `wl_fixed_to_double(value)` is exactly `value / 256`. -/
def option_handle_fixed (o : COption) (lay : Option Nat) (v : Int) :
    COption × List CAction :=
  if o.type = Option_type.DOUBLE_OPTION then
    ({ o with valueD := (v : ℚ) / 256 }, [CAction.parameters_changed lay])
  else (o, [])

/-- The `option_listener` table: `int_value`, `string_value` and
`undeclared` are wired to `noop`. -/
def option_listener_dispatch (o : COption) (lay : Option Nat) :
    OptionEvent → COption × List CAction
  | OptionEvent.uint_value v  => option_handle_uint o lay v
  | OptionEvent.fixed_value v => option_handle_fixed o lay v
  | OptionEvent.int_value _    => (o, [])
  | OptionEvent.string_value _ => (o, [])
  | OptionEvent.undeclared     => (o, [])

/-- Spec-side: does an option event's wire value-kind match the declared
kind of the parameter?  Only `uint_value` matches `UINT_OPTION` and only
`fixed_value` matches `DOUBLE_OPTION`. -/
def kindMatches : OptionEvent → Option_type → Bool
  | OptionEvent.uint_value _,  Option_type.UINT_OPTION   => true
  | OptionEvent.fixed_value _, Option_type.DOUBLE_OPTION => true
  | _, _ => false

/-- Spec-side: the stored value updated to the pushed value. -/
def pushedValue (o : COption) : OptionEvent → COption
  | OptionEvent.uint_value v  => { o with valueU := v }
  | OptionEvent.fixed_value v => { o with valueD := (v : ℚ) / 256 }
  | _ => o

/-- `configure_output`: marks the output configured, gets the layout
object (one fresh proxy id), registers the listener, then requests the
four option handles (four more fresh ids), in source order.  Returns the
updated output, the next fresh id and the requests issued. -/
def configure_output (n : Nat) (o : Output) : Output × Nat × List CAction :=
  ({ o with
      configured := true
      layout := some n
      main_count := { o.main_count with handle := some (n+1) }
      main_factor := { o.main_factor with handle := some (n+2) }
      view_padding := { o.view_padding with handle := some (n+3) }
      outer_padding := { o.outer_padding with handle := some (n+4) } },
   n + 5,
   [CAction.get_layout o.output,
    CAction.get_option_handle "main_count" o.output,
    CAction.get_option_handle "main_factor" o.output,
    CAction.get_option_handle "view_padding" o.output,
    CAction.get_option_handle "outer_padding" o.output])

/-- The freshly `calloc`ed and default-initialised `struct Output` of
`create_output` (before the possible inline configuration):
`main_count = 1`, `main_factor = 0.6`, `view_padding = 5`,
`outer_padding = 5`; no layout, no handles, not configured. -/
def newOutput (wlout : Nat) : Output :=
  { output := wlout
    layout := none
    configured := false
    main_count    := { type := Option_type.UINT_OPTION,   valueU := 1, valueD := 0,   handle := none }
    main_factor   := { type := Option_type.DOUBLE_OPTION, valueU := 0, valueD := 3/5, handle := none }
    view_padding  := { type := Option_type.UINT_OPTION,   valueU := 5, valueD := 0,   handle := none }
    outer_padding := { type := Option_type.UINT_OPTION,   valueU := 5, valueD := 0,   handle := none } }

/-- The loop at the end of `sync_handle_done`: configure every output not
yet configured (each configuration consumes five fresh proxy ids). -/
def configureAllOutputs (n : Nat) : List Output → List Output
  | [] => []
  | o :: rest =>
    if o.configured then o :: configureAllOutputs n rest
    else (configure_output n o).1 :: configureAllOutputs (n + 5) rest

/-- Fresh-id counter after the configuration loop of `sync_handle_done`. -/
def configureAllNext (n : Nat) : List Output → Nat
  | [] => n
  | o :: rest =>
    if o.configured then configureAllNext n rest
    else configureAllNext (n + 5) rest

/-- Requests issued by the configuration loop of `sync_handle_done`. -/
def configureAllActs (n : Nat) : List Output → List CAction
  | [] => []
  | o :: rest =>
    if o.configured then configureAllActs n rest
    else (configure_output n o).2.2 ++ configureAllActs (n + 5) rest

/-- Which of the four per-output options an option event targets. -/
inductive OptField where
  | main_count
  | main_factor
  | view_padding
  | outer_padding
deriving DecidableEq

/-- Read one of the four option fields. -/
def Output.optGet (o : Output) : OptField → COption
  | OptField.main_count    => o.main_count
  | OptField.main_factor   => o.main_factor
  | OptField.view_padding  => o.view_padding
  | OptField.outer_padding => o.outer_padding

/-- Replace one of the four option fields. -/
def Output.optSet (o : Output) : OptField → COption → Output
  | OptField.main_count,    c => { o with main_count := c }
  | OptField.main_factor,   c => { o with main_factor := c }
  | OptField.view_padding,  c => { o with view_padding := c }
  | OptField.outer_padding, c => { o with outer_padding := c }

/-- The process-global state of the client: the two singleton manager
handles, the output list, a fresh-proxy-id counter, the `loop` flag and
whether `ret` currently holds `EXIT_FAILURE`. -/
structure ClientState where
  layout_manager  : Option Nat
  options_manager : Option Nat
  outputs         : List Output
  nextId          : Nat
  loop            : Bool
  ret_failure     : Bool
deriving DecidableEq

/-- State right after a successful `init_wayland` (`ret = EXIT_SUCCESS`
has been set by `main`, no globals seen yet). -/
def initState : ClientState :=
  { layout_manager := none, options_manager := none, outputs := []
    nextId := 0, loop := true, ret_failure := false }

/-- One dispatched server event.  `global_output`'s flag records whether
the `calloc` in `create_output` succeeds.  `option_event` delivers an
option-handle event to option `f` of output index `idx`. -/
inductive Event where
  | global_layout_manager
  | global_options_manager
  | global_output (allocOk : Bool)
  | global_other
  | sync_done
  | option_event (idx : Nat) (f : OptField) (e : OptionEvent)
deriving DecidableEq

/-- One event dispatch: `registry_handle_global` (first four cases,
note that a matching manager notification rebinds unconditionally),
`sync_handle_done`, and delivery of an option event to its listener.
An `option_event` whose target handle does not exist is not deliverable
and is a no-op. -/
def step (s : ClientState) : Event → ClientState × List CAction
  | Event.global_layout_manager =>
      ({ s with layout_manager := some s.nextId, nextId := s.nextId + 1 }, [])
  | Event.global_options_manager =>
      ({ s with options_manager := some s.nextId, nextId := s.nextId + 1 }, [])
  | Event.global_output true =>
      let o := newOutput s.nextId
      if s.layout_manager.isSome && s.options_manager.isSome then
        let c := configure_output (s.nextId + 1) o
        ({ s with outputs := c.1 :: s.outputs, nextId := c.2.1 }, c.2.2)
      else
        ({ s with outputs := o :: s.outputs, nextId := s.nextId + 1 }, [])
  | Event.global_output false =>
      ({ s with nextId := s.nextId + 1, loop := false, ret_failure := true },
       [CAction.report "Failed to allocate."])
  | Event.global_other => (s, [])
  | Event.sync_done =>
      if s.layout_manager = none then
        ({ s with loop := false, ret_failure := true },
         [CAction.report "Wayland compositor does not support river-layout-v1."])
      else if s.options_manager = none then
        ({ s with loop := false, ret_failure := true },
         [CAction.report "Wayland compositor does not support river-options-v2."])
      else
        ({ s with outputs := configureAllOutputs s.nextId s.outputs,
                  nextId := configureAllNext s.nextId s.outputs },
         [CAction.declare_uint "main_count" 1,
          CAction.declare_fixed "main_factor" 154,
          CAction.declare_uint "view_padding" 5,
          CAction.declare_uint "outer_padding" 5] ++ configureAllActs s.nextId s.outputs)
  | Event.option_event idx f e =>
      match s.outputs[idx]? with
      | none => (s, [])
      | some o =>
        if (o.optGet f).handle = none then (s, [])
        else
          let r := option_listener_dispatch (o.optGet f) o.layout e
          ({ s with outputs := s.outputs.set idx (o.optSet f r.1) }, r.2)

/-- Run the event pump from the initial state over a list of events. -/
def run (es : List Event) : ClientState :=
  es.foldl (fun s e => (step s e).1) initState

/-! Arithmetic helper lemmas about the uint32 model. -/

theorem u32_lt (n : Nat) : u32 n < U32MOD := Nat.mod_lt _ (by decide)

theorem u32_eq {n : Nat} (h : n < U32MOD) : u32 n = n := Nat.mod_eq_of_lt h

theorem usub_eq_sub {a b : Nat} (hba : b ≤ a) (ha : a < U32MOD) : usub a b = a - b := by
  have hb : b < U32MOD := lt_of_le_of_lt hba ha
  unfold usub
  rw [u32_eq ha, u32_eq hb]
  unfold u32
  have h1 : a + (U32MOD - b) = U32MOD + (a - b) := by omega
  rw [h1, Nat.add_mod_left]
  exact Nat.mod_eq_of_lt (by omega)

theorem umul2_eq {a : Nat} (h : 2 * a < U32MOD) : umul 2 a = 2 * a := u32_eq h

theorem cMIN_nat_eq (a b : Nat) : cMIN a b = min a b := by
  unfold cMIN
  split_ifs <;> omega

/-! Lemmas about the clamped main factor. -/

theorem clampedFactor_lo (p : Params) : 1/10 ≤ clampedFactor p := by
  unfold clampedFactor cCLAMP cMIN cMAX
  split_ifs <;> linarith

theorem clampedFactor_hi (p : Params) : clampedFactor p ≤ 9/10 := by
  unfold clampedFactor cCLAMP cMIN cMAX
  split_ifs <;> linarith

theorem clampedFactor_of_mem {p : Params} (hlo : 1/10 ≤ p.main_factor)
    (hhi : p.main_factor ≤ 9/10) : clampedFactor p = p.main_factor := by
  unfold clampedFactor cCLAMP cMIN cMAX
  split_ifs <;> linarith

theorem floorMul_le (w : Nat) (f : ℚ) (hf : f ≤ 1) : (⌊(w : ℚ) * f⌋).toNat ≤ w := by
  rcases le_or_lt f 0 with h0 | h0
  · have hle : (w : ℚ) * f ≤ 0 := mul_nonpos_of_nonneg_of_nonpos (by positivity) h0
    have hfl : ⌊(w : ℚ) * f⌋ ≤ 0 := Int.floor_nonpos hle
    exact Int.toNat_le.mpr (le_trans hfl (by positivity))
  · have hle : (w : ℚ) * f ≤ (w : ℚ) := by nlinarith [Nat.cast_nonneg (α := ℚ) w]
    have hfl : ⌊(w : ℚ) * f⌋ ≤ ⌊(w : ℚ)⌋ := Int.floor_le_floor hle
    rw [Int.floor_natCast] at hfl
    exact Int.toNat_le.mpr hfl

theorem mainSize_le_w (main_count view_count w : Nat) {f : ℚ} (hf : f ≤ 1) :
    mainSize main_count view_count w f ≤ w := by
  unfold mainSize
  split_ifs
  · exact Nat.zero_le _
  · exact le_refl w
  · exact floorMul_le w f hf

theorem stackSize_lt (main_count view_count w : Nat) (f : ℚ) (hw : w < U32MOD) :
    stackSize main_count view_count w f < U32MOD := by
  unfold stackSize
  split_ifs
  · exact hw
  · omega
  · exact u32_lt _

theorem slotWidth_lt (p : Params) (view_count w i : Nat) (hw : w < U32MOD) :
    slotWidth p view_count w i < U32MOD := by
  unfold slotWidth
  split_ifs
  · exact lt_of_le_of_lt
      (mainSize_le_w _ _ _ (le_trans (clampedFactor_hi p) (by norm_num))) hw
  · exact stackSize_lt _ _ _ _ hw

theorem slotHeight_le (main_count view_count h i : Nat) :
    slotHeight main_count view_count h i ≤ h := by
  unfold slotHeight
  split_ifs <;> exact Nat.div_le_self _ _

theorem adjDim_lt (p : Params) (v : Nat) : adjDim p v < U32MOD := u32_lt _

theorem adjDim_eq {p : Params} {v : Nat} (h2 : 2 * p.outer_padding ≤ v)
    (hv : v < U32MOD) : adjDim p v = v - 2 * p.outer_padding := by
  unfold adjDim
  rw [umul2_eq (lt_of_le_of_lt h2 hv), usub_eq_sub h2 hv]

/-- C1: for every layout-demand event with view count `n ≥ 0`, the demand
handler pushes exactly `n` geometry records (zero when `n = 0`), each
tagged with the demand's serial unmodified, and then issues exactly one
commit carrying that same serial (the commit is the last request). -/
theorem layout_demand_count_serial_commit (p : Params)
    (view_count width height tags serial : Nat) :
    ∃ pushes : List LayoutAction,
      layout_handle_layout_demand p view_count width height tags serial
        = pushes ++ [LayoutAction.commit serial] ∧
      pushes.length = view_count ∧
      ∀ a ∈ pushes, ∃ x y w h, a = LayoutAction.push_view_dimensions serial x y w h := by
  refine ⟨_, rfl, ?_, ?_⟩
  · simp
  · intro a ha
    simp only [List.mem_map, List.mem_range] at ha
    obtain ⟨i, _, rfl⟩ := ha
    exact ⟨_, _, _, _, rfl⟩

/-- Witness for C1: the handler output at a concrete demand. -/
theorem layout_demand_count_serial_commit_witness :
    ∃ pushes : List LayoutAction,
      layout_handle_layout_demand
          { main_count := 1, main_factor := 0, view_padding := 0, outer_padding := 0 }
          2 100 100 0 7
        = pushes ++ [LayoutAction.commit 7] ∧
      pushes.length = 2 ∧
      ∀ a ∈ pushes, ∃ x y w h, a = LayoutAction.push_view_dimensions 7 x y w h :=
  layout_demand_count_serial_commit _ 2 100 100 0 7

/-- C3: on the demand `view_count=4, width=1000, height=800` with
parameters `main_count=1, main_factor=0.6, view_padding=5,
outer_padding=5`, the handler emits exactly the four rectangles
`(10,10,584,780), (604,10,386,253), (604,273,386,253), (604,536,386,253)`
in index order, followed by the commit. -/
theorem layout_demand_example_rectangles :
    layout_handle_layout_demand
      { main_count := 1, main_factor := 3/5, view_padding := 5, outer_padding := 5 }
      4 1000 800 0 1
    = [LayoutAction.push_view_dimensions 1 10 10 584 780,
       LayoutAction.push_view_dimensions 1 604 10 386 253,
       LayoutAction.push_view_dimensions 1 604 273 386 253,
       LayoutAction.push_view_dimensions 1 604 536 386 253,
       LayoutAction.commit 1] := by
  with_unfolding_all rfl

/-- C4: the main factor actually used by the demand handler (the stored
value passed through `CLAMP(·, 0.1, 0.9)`) lies in `[0.1, 0.9]` no matter
what value any update path stored, and clamping an already-clamped value
is a no-op. -/
theorem main_factor_observed_in_range (p : Params) :
    1/10 ≤ clampedFactor p ∧ clampedFactor p ≤ 9/10 ∧
    clampedFactor { p with main_factor := clampedFactor p } = clampedFactor p :=
  ⟨clampedFactor_lo p, clampedFactor_hi p,
   clampedFactor_of_mem (clampedFactor_lo p) (clampedFactor_hi p)⟩

/-- C8: for any loop index `i < view_count`, the divisor of the division
actually reached is nonzero: `MIN(main_count, view_count)` on the main
branch (`i < main_count`), `view_count - main_count` (uint32 subtraction)
on the stack branch. -/
theorem loop_divisors_nonzero (main_count view_count i : Nat)
    (hvc : view_count < U32MOD) (hi : i < view_count) :
    (i < main_count → mainDivisor main_count view_count ≠ 0) ∧
    (¬ i < main_count → stackDivisor main_count view_count ≠ 0) := by
  constructor
  · intro him
    unfold mainDivisor cMIN
    split_ifs <;> omega
  · intro him
    have h1 : main_count < view_count := lt_of_le_of_lt (Nat.le_of_not_lt him) hi
    unfold stackDivisor
    rw [usub_eq_sub (le_of_lt h1) hvc]
    omega

/-- Witness for C8 at `main_count=1, view_count=2, i=0`. -/
theorem loop_divisors_nonzero_witness :
    (2 : Nat) < U32MOD ∧ (0 : Nat) < 2 ∧
    ((0 < 1 → mainDivisor 1 2 ≠ 0) ∧ (¬ 0 < 1 → stackDivisor 1 2 ≠ 0)) :=
  ⟨by decide, by decide, loop_divisors_nonzero 1 2 0 (by decide) (by decide)⟩

/-- Spec-side main-region width, written from the claim's words: `0` when
`main_count == 0`; the full (already adjusted) width when
`view_count <= main_count`; otherwise `floor(width * main_factor)`. -/
def spec_mainWidth (main_count view_count w : Nat) (factor : ℚ) : Nat :=
  if main_count = 0 then 0
  else if view_count ≤ main_count then w
  else (⌊(w : ℚ) * factor⌋).toNat

/-- Spec-side per-view slot height, written from the claim's words:
`floor(height / min(main_count, view_count))` for a main view,
`floor(height / (view_count - main_count))` for a stack view. -/
def spec_viewHeight (main_count view_count h i : Nat) : Nat :=
  if i < main_count then h / min main_count view_count
  else h / (view_count - main_count)

/-- C2: for a demand whose dimensions are in uint32 range, with
`2*outer_padding` at most the dimensions and a stored main factor already
in `[0.1, 0.9]` (the spec's value range for this parameter), the engine
subtracts twice `outer_padding` from width and height, partitions the
adjusted width exactly as the claim states, gives the stack the
remainder, and sizes view `i < view_count` with exactly the claimed slot
heights. -/
theorem layout_arithmetic_matches_spec (p : Params) (view_count width height : Nat)
    (hwm : width < U32MOD) (hhm : height < U32MOD) (hvc : view_count < U32MOD)
    (hw : 2 * p.outer_padding ≤ width) (hh : 2 * p.outer_padding ≤ height)
    (hlo : 1/10 ≤ p.main_factor) (hhi : p.main_factor ≤ 9/10) :
    adjDim p width = width - 2 * p.outer_padding ∧
    adjDim p height = height - 2 * p.outer_padding ∧
    mainSize p.main_count view_count (adjDim p width) (clampedFactor p)
      = spec_mainWidth p.main_count view_count (width - 2 * p.outer_padding) p.main_factor ∧
    stackSize p.main_count view_count (adjDim p width) (clampedFactor p)
      = (width - 2 * p.outer_padding)
        - spec_mainWidth p.main_count view_count (width - 2 * p.outer_padding) p.main_factor ∧
    (∀ i, i < view_count →
      slotHeight p.main_count view_count (adjDim p height) i
        = spec_viewHeight p.main_count view_count (height - 2 * p.outer_padding) i) := by
  have hfe : clampedFactor p = p.main_factor := clampedFactor_of_mem hlo hhi
  have hadjw : adjDim p width = width - 2 * p.outer_padding := adjDim_eq hw hwm
  have hadjh : adjDim p height = height - 2 * p.outer_padding := adjDim_eq hh hhm
  refine ⟨hadjw, hadjh, ?_, ?_, ?_⟩
  · rw [hadjw, hfe]
    rfl
  · rw [hadjw, hfe]
    unfold stackSize spec_mainWidth
    split_ifs with h1 h2
    · omega
    · omega
    · have hfl : mainSize p.main_count view_count (width - 2 * p.outer_padding) p.main_factor
          ≤ width - 2 * p.outer_padding :=
        mainSize_le_w _ _ _ (le_trans hhi (by norm_num))
      rw [usub_eq_sub hfl (by omega)]
      unfold mainSize
      rw [if_neg h1, if_neg h2]
  · intro i hi
    rw [hadjh]
    unfold slotHeight spec_viewHeight mainDivisor stackDivisor
    split_ifs with hil
    · rw [cMIN_nat_eq]
    · have h1 : p.main_count < view_count := lt_of_le_of_lt (Nat.le_of_not_lt hil) hi
      rw [usub_eq_sub (le_of_lt h1) hvc]

/-- Concrete parameter set used by the C2 witness. -/
def pC2 : Params :=
  { main_count := 1, main_factor := 1/2, view_padding := 0, outer_padding := 1 }

/-- Witness for C2 at `view_count=3, width=12, height=12`. -/
theorem layout_arithmetic_matches_spec_witness :
    ((12 : Nat) < U32MOD ∧ 2 * pC2.outer_padding ≤ 12 ∧
     1/10 ≤ pC2.main_factor ∧ pC2.main_factor ≤ 9/10) ∧
    (adjDim pC2 12 = 12 - 2 * pC2.outer_padding ∧
     adjDim pC2 12 = 12 - 2 * pC2.outer_padding ∧
     mainSize pC2.main_count 3 (adjDim pC2 12) (clampedFactor pC2)
       = spec_mainWidth pC2.main_count 3 (12 - 2 * pC2.outer_padding) pC2.main_factor ∧
     stackSize pC2.main_count 3 (adjDim pC2 12) (clampedFactor pC2)
       = (12 - 2 * pC2.outer_padding)
         - spec_mainWidth pC2.main_count 3 (12 - 2 * pC2.outer_padding) pC2.main_factor ∧
     (∀ i, i < 3 →
       slotHeight pC2.main_count 3 (adjDim pC2 12) i
         = spec_viewHeight pC2.main_count 3 (12 - 2 * pC2.outer_padding) i)) :=
  ⟨⟨by decide, by decide, by norm_num [pC2], by norm_num [pC2]⟩,
   layout_arithmetic_matches_spec pC2 3 12 12 (by decide) (by decide) (by decide)
     (by decide) (by decide) (by norm_num [pC2]) (by norm_num [pC2])⟩

/-- C5: an option-value push is accepted exactly when the wire value-kind
matches the declared kind; on acceptance the stored value becomes the
pushed value and one `parameters_changed` notification is sent on the
output's layout object; on mismatch the option is unchanged and nothing
is sent. -/
theorem option_push_kind_gate (o : COption) (lay : Option Nat) (e : OptionEvent) :
    (kindMatches e o.type = true →
      option_listener_dispatch o lay e
        = (pushedValue o e, [CAction.parameters_changed lay])) ∧
    (kindMatches e o.type = false →
      option_listener_dispatch o lay e = (o, [])) := by
  rcases o with ⟨t, vu, vd, h⟩
  cases t <;> cases e <;>
    simp [option_listener_dispatch, option_handle_uint, option_handle_fixed,
      kindMatches, pushedValue]

/-- Witness for C5: a matching uint push on a uint option and the same
push dropped by a double option. -/
theorem option_push_kind_gate_witness :
    (kindMatches (OptionEvent.uint_value 7) Option_type.UINT_OPTION = true ∧
     option_listener_dispatch
         ⟨Option_type.UINT_OPTION, 1, 0, none⟩ (some 3) (OptionEvent.uint_value 7)
       = (pushedValue ⟨Option_type.UINT_OPTION, 1, 0, none⟩ (OptionEvent.uint_value 7),
          [CAction.parameters_changed (some 3)])) ∧
    (kindMatches (OptionEvent.uint_value 7) Option_type.DOUBLE_OPTION = false ∧
     option_listener_dispatch
         ⟨Option_type.DOUBLE_OPTION, 0, 0, none⟩ (some 3) (OptionEvent.uint_value 7)
       = (⟨Option_type.DOUBLE_OPTION, 0, 0, none⟩, [])) :=
  ⟨⟨rfl, (option_push_kind_gate _ _ _).1 rfl⟩,
   ⟨rfl, (option_push_kind_gate _ _ _).2 rfl⟩⟩

/-- Concrete parameter set used for the C9 wrap conjunct and witness. -/
def pC9 : Params :=
  { main_count := 0, main_factor := 0, view_padding := 500, outer_padding := 0 }

/-- C9: whenever `2*view_padding` is strictly below the slot's width and
height, the emitted geometry has positive width and height; and when it
is not, the computed value is passed through with no clamping — in the
uint32 arithmetic it wraps, as the concrete conjunct shows
(`view_padding = 500` against a 100-wide slot yields `2^32 - 900`). -/
theorem pushed_geometry_positive (p : Params) (view_count width height i : Nat)
    (hwv : 2 * p.view_padding < slotWidth p view_count (adjDim p width) i)
    (hhv : 2 * p.view_padding < slotHeight p.main_count view_count (adjDim p height) i) :
    (0 < (pushedGeom p view_count width height i).w ∧
     0 < (pushedGeom p view_count width height i).h) ∧
    (pushedGeom pC9 1 100 100 0).w = U32MOD - 900 := by
  have hsw : slotWidth p view_count (adjDim p width) i < U32MOD :=
    slotWidth_lt p view_count _ i (adjDim_lt p width)
  have hsh : slotHeight p.main_count view_count (adjDim p height) i < U32MOD :=
    lt_of_le_of_lt (slotHeight_le _ _ _ _) (adjDim_lt p height)
  refine ⟨⟨?_, ?_⟩, by decide⟩
  · show 0 < usub (slotWidth p view_count (adjDim p width) i) (umul 2 p.view_padding)
    rw [umul2_eq (lt_trans hwv hsw), usub_eq_sub (le_of_lt hwv) hsw]
    omega
  · show 0 < usub (slotHeight p.main_count view_count (adjDim p height) i)
        (umul 2 p.view_padding)
    rw [umul2_eq (lt_trans hhv hsh), usub_eq_sub (le_of_lt hhv) hsh]
    omega

/-- Concrete parameter set used by the C9 witness (small padding). -/
def pC9small : Params :=
  { main_count := 0, main_factor := 0, view_padding := 5, outer_padding := 0 }

/-- Witness for C9 at a 100×100 demand with one view. -/
theorem pushed_geometry_positive_witness :
    (2 * pC9small.view_padding < slotWidth pC9small 1 (adjDim pC9small 100) 0 ∧
     2 * pC9small.view_padding < slotHeight pC9small.main_count 1 (adjDim pC9small 100) 0) ∧
    ((0 < (pushedGeom pC9small 1 100 100 0).w ∧
      0 < (pushedGeom pC9small 1 100 100 0).h) ∧
     (pushedGeom pC9 1 100 100 0).w = U32MOD - 900) :=
  ⟨⟨by decide, by decide⟩,
   pushed_geometry_positive pC9small 1 100 100 0 (by decide) (by decide)⟩

/-! Lemmas about the configuration loop of the synchronization gate. -/

theorem configureAllOutputs_configured :
    ∀ (os : List Output) (n : Nat), ∀ o ∈ configureAllOutputs n os, o.configured = true := by
  intro os
  induction os with
  | nil => intro n o ho; simp [configureAllOutputs] at ho
  | cons a rest ih =>
    intro n o ho
    unfold configureAllOutputs at ho
    split_ifs at ho with hc
    · rcases List.mem_cons.mp ho with rfl | hm
      · exact hc
      · exact ih n o hm
    · rcases List.mem_cons.mp ho with rfl | hm
      · rfl
      · exact ih (n + 5) o hm

theorem configureAllOutputs_keeps :
    ∀ (os : List Output) (n : Nat), ∀ o ∈ os, o.configured = true →
      o ∈ configureAllOutputs n os := by
  intro os
  induction os with
  | nil => intro n o ho; simp at ho
  | cons a rest ih =>
    intro n o ho hoc
    unfold configureAllOutputs
    split_ifs with hc
    · rcases List.mem_cons.mp ho with rfl | hm
      · exact List.mem_cons_self _ _
      · exact List.mem_cons_of_mem _ (ih n o hm hoc)
    · rcases List.mem_cons.mp ho with rfl | hm
      · exact absurd hoc hc
      · exact List.mem_cons_of_mem _ (ih (n + 5) o hm hoc)

theorem configureAllNext_le :
    ∀ (os : List Output) (n : Nat), n ≤ configureAllNext n os := by
  intro os
  induction os with
  | nil => intro n; exact le_refl n
  | cons a rest ih =>
    intro n
    unfold configureAllNext
    split_ifs
    · exact ih n
    · exact le_trans (by omega) (ih (n + 5))

/-- C6: when the synchronization gate fires with the layout manager
unbound, exactly the specific missing capability is reported and the
state stops with failure status, nothing else happening; same for the
options manager when only it is unbound; otherwise defaults are declared
for all four named options and afterwards every output context is
configured, previously configured contexts surviving untouched and the
process not stopping. -/
theorem sync_done_gate (s : ClientState) :
    (s.layout_manager = none →
      step s Event.sync_done
        = ({ s with loop := false, ret_failure := true },
           [CAction.report "Wayland compositor does not support river-layout-v1."])) ∧
    (s.layout_manager ≠ none → s.options_manager = none →
      step s Event.sync_done
        = ({ s with loop := false, ret_failure := true },
           [CAction.report "Wayland compositor does not support river-options-v2."])) ∧
    (s.layout_manager ≠ none → s.options_manager ≠ none →
      CAction.declare_uint "main_count" 1 ∈ (step s Event.sync_done).2 ∧
      CAction.declare_fixed "main_factor" 154 ∈ (step s Event.sync_done).2 ∧
      CAction.declare_uint "view_padding" 5 ∈ (step s Event.sync_done).2 ∧
      CAction.declare_uint "outer_padding" 5 ∈ (step s Event.sync_done).2 ∧
      (∀ o ∈ (step s Event.sync_done).1.outputs, o.configured = true) ∧
      (∀ o ∈ s.outputs, o.configured = true → o ∈ (step s Event.sync_done).1.outputs) ∧
      (step s Event.sync_done).1.loop = s.loop ∧
      (step s Event.sync_done).1.ret_failure = s.ret_failure) := by
  refine ⟨?_, ?_, ?_⟩
  · intro h0
    simp only [step]
    rw [if_pos h0]
  · intro h1 h2
    simp only [step]
    rw [if_neg h1, if_pos h2]
  · intro h1 h2
    simp only [step]
    rw [if_neg h1, if_neg h2]
    refine ⟨by simp, by simp, by simp, by simp, ?_, ?_, rfl, rfl⟩
    · intro o ho
      exact configureAllOutputs_configured s.outputs s.nextId o ho
    · intro o ho hoc
      exact configureAllOutputs_keeps s.outputs s.nextId o ho hoc

/-- Witness for C6: the failing gate from the initial state and the
successful gate after both managers were advertised. -/
theorem sync_done_gate_witness :
    (initState.layout_manager = none ∧
     step initState Event.sync_done
       = ({ initState with loop := false, ret_failure := true },
          [CAction.report "Wayland compositor does not support river-layout-v1."])) ∧
    ((run [Event.global_layout_manager, Event.global_options_manager]).layout_manager
        ≠ none ∧
     (run [Event.global_layout_manager, Event.global_options_manager]).options_manager
        ≠ none ∧
     CAction.declare_uint "main_count" 1
       ∈ (step (run [Event.global_layout_manager, Event.global_options_manager])
            Event.sync_done).2) :=
  ⟨⟨rfl, (sync_done_gate initState).1 rfl⟩,
   ⟨by decide, by decide,
    ((sync_done_gate _).2.2 (by decide) (by decide)).1⟩⟩

/-- Counterexample to C7: `registry_handle_global` rebinds
unconditionally, so a second `global` notification for the layout-manager
interface replaces the bound singleton handle (proxy 0) with a freshly
bound proxy (proxy 1) — the later notification does change the handle. -/
theorem registry_rebind_not_idempotent :
    (run [Event.global_layout_manager]).layout_manager = some 0 ∧
    (run [Event.global_layout_manager, Event.global_layout_manager]).layout_manager
      = some 1 ∧
    (run [Event.global_layout_manager, Event.global_layout_manager]).layout_manager
      ≠ (run [Event.global_layout_manager]).layout_manager := by
  refine ⟨rfl, rfl, by decide⟩

theorem run_append_single (es : List Event) (e : Event) :
    run (es ++ [e]) = (step (run es) e).1 := by
  simp [run, List.foldl_append]

theorem step_nextId_mono (s : ClientState) (e : Event) :
    s.nextId ≤ (step s e).1.nextId := by
  cases e with
  | global_layout_manager => simp [step]
  | global_options_manager => simp [step]
  | global_output ok =>
    cases ok with
    | false => simp [step]
    | true =>
      simp only [step]
      split_ifs <;> simp [configure_output] <;> omega
  | global_other => simp [step]
  | sync_done =>
    simp only [step]
    split_ifs
    · simp
    · simp
    · simpa using configureAllNext_le s.outputs s.nextId
  | option_event idx f ev =>
    simp only [step]
    cases h : s.outputs[idx]? with
    | none => simp
    | some o => dsimp only; split_ifs <;> simp

theorem step_managers_fresh {s : ClientState}
    (hs : ∀ h, (s.layout_manager = some h → h < s.nextId) ∧
               (s.options_manager = some h → h < s.nextId)) (e : Event) :
    ∀ h, ((step s e).1.layout_manager = some h → h < (step s e).1.nextId) ∧
         ((step s e).1.options_manager = some h → h < (step s e).1.nextId) := by
  have hmono := step_nextId_mono s e
  cases e with
  | global_layout_manager =>
    intro h
    refine ⟨?_, ?_⟩
    · intro hl
      simp [step] at hl ⊢
      omega
    · intro hl
      simp [step] at hl ⊢
      exact lt_of_lt_of_le ((hs h).2 hl) (by omega)
  | global_options_manager =>
    intro h
    refine ⟨?_, ?_⟩
    · intro hl
      simp [step] at hl ⊢
      exact lt_of_lt_of_le ((hs h).1 hl) (by omega)
    · intro hl
      simp [step] at hl ⊢
      omega
  | global_output ok =>
    intro h
    constructor
    · intro hl
      refine lt_of_lt_of_le ((hs h).1 ?_) hmono
      cases ok with
      | false => simpa [step] using hl
      | true =>
        simp only [step] at hl
        split_ifs at hl <;> simpa using hl
    · intro hl
      refine lt_of_lt_of_le ((hs h).2 ?_) hmono
      cases ok with
      | false => simpa [step] using hl
      | true =>
        simp only [step] at hl
        split_ifs at hl <;> simpa using hl
  | global_other =>
    intro h
    exact ⟨fun hl => lt_of_lt_of_le ((hs h).1 (by simpa [step] using hl)) hmono,
           fun hl => lt_of_lt_of_le ((hs h).2 (by simpa [step] using hl)) hmono⟩
  | sync_done =>
    intro h
    constructor
    · intro hl
      refine lt_of_lt_of_le ((hs h).1 ?_) hmono
      simp only [step] at hl
      split_ifs at hl <;> simpa using hl
    · intro hl
      refine lt_of_lt_of_le ((hs h).2 ?_) hmono
      simp only [step] at hl
      split_ifs at hl <;> simpa using hl
  | option_event idx f ev =>
    intro h
    constructor
    · intro hl
      refine lt_of_lt_of_le ((hs h).1 ?_) hmono
      simp only [step] at hl
      cases hg : s.outputs[idx]? with
      | none => rw [hg] at hl; simpa using hl
      | some o =>
        rw [hg] at hl
        dsimp only at hl
        split_ifs at hl <;> simpa using hl
    · intro hl
      refine lt_of_lt_of_le ((hs h).2 ?_) hmono
      simp only [step] at hl
      cases hg : s.outputs[idx]? with
      | none => rw [hg] at hl; simpa using hl
      | some o =>
        rw [hg] at hl
        dsimp only at hl
        split_ifs at hl <;> simpa using hl

theorem run_managers_fresh (es : List Event) :
    ∀ h, ((run es).layout_manager = some h → h < (run es).nextId) ∧
         ((run es).options_manager = some h → h < (run es).nextId) := by
  have H : ∀ (l : List Event) (s : ClientState),
      (∀ h, (s.layout_manager = some h → h < s.nextId) ∧
            (s.options_manager = some h → h < s.nextId)) →
      ∀ h, ((l.foldl (fun s e => (step s e).1) s).layout_manager = some h →
              h < (l.foldl (fun s e => (step s e).1) s).nextId) ∧
           ((l.foldl (fun s e => (step s e).1) s).options_manager = some h →
              h < (l.foldl (fun s e => (step s e).1) s).nextId) := by
    intro l
    induction l with
    | nil => exact fun s hs => hs
    | cons e rest ih => exact fun s hs => ih _ (step_managers_fresh hs e)
  exact H es initState (by intro h; simp [initState])

/-- C7 amended: binding is not idempotent — every matching
global-available notification rebinds, so after a later notification the
bound singleton handle is the freshly created proxy of that notification,
which is different from every handle bound before (all earlier handles
are below the fresh-id counter). -/
theorem registry_rebind_last_wins (es : List Event) :
    (run (es ++ [Event.global_layout_manager])).layout_manager
      = some (run es).nextId ∧
    (run (es ++ [Event.global_options_manager])).options_manager
      = some (run es).nextId ∧
    (∀ h, (run es).layout_manager = some h → h < (run es).nextId) ∧
    (∀ h, (run es).options_manager = some h → h < (run es).nextId) := by
  refine ⟨?_, ?_, fun h => (run_managers_fresh es h).1,
          fun h => (run_managers_fresh es h).2⟩
  · rw [run_append_single]
    rfl
  · rw [run_append_single]
    rfl

/-- Witness for the amended C7: after one layout-manager notification the
handle is proxy 0; a second notification rebinds to proxy 1 = the current
fresh id, and the old handle 0 is indeed below that fresh id. -/
theorem registry_rebind_last_wins_witness :
    (run ([Event.global_layout_manager] ++ [Event.global_layout_manager])).layout_manager
      = some (run [Event.global_layout_manager]).nextId ∧
    (run [Event.global_layout_manager]).layout_manager = some 0 ∧
    0 < (run [Event.global_layout_manager]).nextId :=
  ⟨(registry_rebind_last_wins [Event.global_layout_manager]).1,
   by decide,
   (registry_rebind_last_wins [Event.global_layout_manager]).2.2.1 0 (by decide)⟩

/-- The per-output invariant: the `configured` flag, the layout handle
and each of the four option handles are present all together or not at
all. -/
def goodOutput (o : Output) : Prop :=
  (o.configured = true ↔ o.layout ≠ none) ∧
  (o.configured = true ↔ o.main_count.handle ≠ none) ∧
  (o.configured = true ↔ o.main_factor.handle ≠ none) ∧
  (o.configured = true ↔ o.view_padding.handle ≠ none) ∧
  (o.configured = true ↔ o.outer_padding.handle ≠ none)

theorem goodOutput_newOutput (w : Nat) : goodOutput (newOutput w) := by
  simp [goodOutput, newOutput]

theorem goodOutput_configure (n : Nat) (o : Output) :
    goodOutput (configure_output n o).1 := by
  simp [goodOutput, configure_output]

theorem configureAllOutputs_good :
    ∀ (os : List Output) (n : Nat), (∀ o ∈ os, goodOutput o) →
      ∀ o ∈ configureAllOutputs n os, goodOutput o := by
  intro os
  induction os with
  | nil => intro n _ o ho; simp [configureAllOutputs] at ho
  | cons a rest ih =>
    intro n hs o ho
    unfold configureAllOutputs at ho
    split_ifs at ho with hc
    · rcases List.mem_cons.mp ho with rfl | hm
      · exact hs o (List.mem_cons_self _ _)
      · exact ih n (fun o' ho' => hs o' (List.mem_cons_of_mem _ ho')) o hm
    · rcases List.mem_cons.mp ho with rfl | hm
      · exact goodOutput_configure n a
      · exact ih (n + 5) (fun o' ho' => hs o' (List.mem_cons_of_mem _ ho')) o hm

theorem dispatch_handle (o : COption) (lay : Option Nat) (e : OptionEvent) :
    (option_listener_dispatch o lay e).1.handle = o.handle := by
  cases e <;>
    simp only [option_listener_dispatch, option_handle_uint, option_handle_fixed] <;>
    first
    | rfl
    | (split_ifs <;> rfl)

theorem dispatch_acts (o : COption) (lay : Option Nat) (e : OptionEvent) :
    ∀ a ∈ (option_listener_dispatch o lay e).2, a = CAction.parameters_changed lay := by
  cases e <;>
    simp only [option_listener_dispatch, option_handle_uint, option_handle_fixed] <;>
    first
    | simp
    | (split_ifs <;> simp)

theorem optSet_good {o : Output} (ho : goodOutput o) {f : OptField} {c : COption}
    (hc : c.handle = (o.optGet f).handle) : goodOutput (o.optSet f c) := by
  obtain ⟨h1, h2, h3, h4, h5⟩ := ho
  cases f <;> simp_all [Output.optGet, Output.optSet, goodOutput]

theorem step_good {s : ClientState} (hs : ∀ o ∈ s.outputs, goodOutput o) (e : Event) :
    ∀ o ∈ (step s e).1.outputs, goodOutput o := by
  cases e with
  | global_layout_manager => simpa [step] using hs
  | global_options_manager => simpa [step] using hs
  | global_other => simpa [step] using hs
  | global_output ok =>
    cases ok with
    | false => simpa [step] using hs
    | true =>
      simp only [step]
      split_ifs with hm
      · intro o ho
        simp at ho
        rcases ho with rfl | hm2
        · exact goodOutput_configure _ _
        · exact hs o hm2
      · intro o ho
        simp at ho
        rcases ho with rfl | hm2
        · exact goodOutput_newOutput _
        · exact hs o hm2
  | sync_done =>
    simp only [step]
    split_ifs with h1 h2
    · simpa using hs
    · simpa using hs
    · intro o ho
      simp at ho
      exact configureAllOutputs_good s.outputs s.nextId hs o ho
  | option_event idx f ev =>
    simp only [step]
    cases h : s.outputs[idx]? with
    | none => simpa using hs
    | some o0 =>
      dsimp only
      split_ifs with hh
      · simpa using hs
      · intro o ho
        simp at ho
        rcases List.mem_or_eq_of_mem_set ho with hm | rfl
        · exact hs o hm
        · exact optSet_good (hs o0 (List.getElem?_mem h)) (dispatch_handle _ _ _)

theorem run_good (es : List Event) : ∀ o ∈ (run es).outputs, goodOutput o := by
  have H : ∀ (l : List Event) (s : ClientState), (∀ o ∈ s.outputs, goodOutput o) →
      ∀ o ∈ (l.foldl (fun s e => (step s e).1) s).outputs, goodOutput o := by
    intro l
    induction l with
    | nil => exact fun s hs => hs
    | cons e rest ih => exact fun s hs => ih _ (step_good hs e)
  exact H es initState (by intro o ho; simp [initState] at ho)

/-- C10: in every reachable state, an output context is `configured` iff
its layout handle is non-null iff all four option handles are non-null;
configuration requests the layout object strictly before any option
handle; and consequently every option-update callback that actually
fires sends its `parameters_changed` notification on a non-null layout
object. -/
theorem output_configured_handles_invariant (es : List Event) :
    (∀ o ∈ (run es).outputs,
      (o.configured = true ↔ o.layout ≠ none) ∧
      (o.configured = true ↔
        (o.main_count.handle ≠ none ∧ o.main_factor.handle ≠ none ∧
         o.view_padding.handle ≠ none ∧ o.outer_padding.handle ≠ none))) ∧
    (∀ n o, ∃ rest, (configure_output n o).2.2 = CAction.get_layout o.output :: rest ∧
      ∀ a ∈ rest, ∃ nm, a = CAction.get_option_handle nm o.output) ∧
    (∀ idx f ev lay,
      CAction.parameters_changed lay ∈ (step (run es) (Event.option_event idx f ev)).2 →
      lay ≠ none) := by
  refine ⟨?_, ?_, ?_⟩
  · intro o ho
    obtain ⟨h1, h2, h3, h4, h5⟩ := run_good es o ho
    exact ⟨h1, fun hc => ⟨h2.mp hc, h3.mp hc, h4.mp hc, h5.mp hc⟩,
           fun hx => h2.mpr hx.1⟩
  · intro n o
    refine ⟨_, rfl, ?_⟩
    intro a ha
    simp only [List.mem_cons, List.not_mem_nil, or_false] at ha
    rcases ha with rfl | rfl | rfl | rfl <;> exact ⟨_, rfl⟩
  · intro idx f ev lay hmem
    simp only [step] at hmem
    cases h : (run es).outputs[idx]? with
    | none => rw [h] at hmem; simp at hmem
    | some o0 =>
      rw [h] at hmem
      dsimp only at hmem
      split_ifs at hmem with hh
      · simp at hmem
      · have heq := dispatch_acts (o0.optGet f) o0.layout ev _ hmem
        have hlay : lay = o0.layout := by
          injection heq
        obtain ⟨h1, h2, h3, h4, h5⟩ := run_good es o0 (List.getElem?_mem h)
        have hcfg : o0.configured = true := by
          cases f
          · exact h2.mpr (by simpa [Output.optGet] using hh)
          · exact h3.mpr (by simpa [Output.optGet] using hh)
          · exact h4.mpr (by simpa [Output.optGet] using hh)
          · exact h5.mpr (by simpa [Output.optGet] using hh)
        rw [hlay]
        exact h1.mp hcfg

/-- Witness for C10: in the state where one output was configured
inline, a uint push on its `main_count` option notifies on the non-null
layout object `some 3`. -/
theorem output_configured_handles_invariant_witness :
    CAction.parameters_changed (some 3)
      ∈ (step (run [Event.global_layout_manager, Event.global_options_manager,
                    Event.global_output true])
          (Event.option_event 0 OptField.main_count (OptionEvent.uint_value 7))).2 ∧
    (some 3 : Option Nat) ≠ none :=
  ⟨by decide,
   (output_configured_handles_invariant
       [Event.global_layout_manager, Event.global_options_manager,
        Event.global_output true]).2.2
     0 OptField.main_count (OptionEvent.uint_value 7) (some 3) (by decide)⟩
